import Mathlib

/-!
Verification of the libqfieldsync packaging / offline-conversion core.

The Lean definitions below are shallow embeddings of the Python sources:
`libqfieldsync/layer.py` (layer policy), `libqfieldsync/offliners.py`
(datasource consolidation engine, `PythonMiniOffliner`),
`libqfieldsync/offline_converter.py` (packaging pipeline and relationship
linker).  External QGIS / GDAL library calls (SHA-256, URI codecs, path
resolvers, coordinate transforms, sidecar enumeration) are modelled as data
or function parameters; everything written by the repository itself is
translated statement by statement.
-/

namespace LibQFieldSync

/-! ## Basic enumerations (layer.py `SyncAction`, QGIS layer/geometry kinds) -/

inductive SyncAction where
  | offline
  | noAction
  | copy
  | keepExistent
  | remove
  deriving Repr, DecidableEq

inductive LayerType where
  | vector
  | raster
  | vectorTile
  | other
  deriving Repr, DecidableEq

inductive GeometryType where
  | point
  | line
  | polygon
  | nullGeom
  | unknownGeom
  deriving Repr, DecidableEq

/-! ## String helpers

Small character-level models of the string operations the Python code uses
(`str.lower`, `str.startswith`, `str.endswith`, slicing, membership):
Python operates on code points, so `String.data`-level definitions match. -/

def lowerChar (c : Char) : Char :=
  if 65 ≤ c.toNat ∧ c.toNat ≤ 90 then Char.ofNat (c.toNat + 32) else c

def strLower (s : String) : String := String.mk (s.data.map lowerChar)

def strIsPref : List Char → List Char → Bool
  | [], _ => true
  | _ :: _, [] => false
  | a :: as, b :: bs => a = b && strIsPref as bs

def strStarts (s pat : String) : Bool := strIsPref pat.data s.data

def strEnds (s pat : String) : Bool := strIsPref pat.data.reverse s.data.reverse

def strDrop (s : String) (n : Nat) : String := String.mk (s.data.drop n)

def strContainsChar (s : String) (c : Char) : Bool := s.data.any (fun x => x = c)

def strHasSub : List Char → List Char → Bool
  | [], pat => pat.isEmpty
  | l@(_ :: rest), pat => strIsPref pat l || strHasSub rest pat

def strContainsSub (s pat : String) : Bool := strHasSub s.data pat.data

/-! ## QgsFields model

`QgsField` carries a name and an alias; `lookupField` mirrors
`QgsFields::lookupField`: exact name match first, then case-insensitive
name match, then case-insensitive alias match, `-1` when nothing matches
or the searched name is empty. -/

structure QgsField where
  name : String
  fieldAlias : String
  deriving Repr, DecidableEq

def firstIdxWhere {α : Type} (p : α → Bool) : List α → Option Nat
  | [] => none
  | a :: rest => if p a then some 0 else (firstIdxWhere p rest).map (· + 1)

def lookupField (fields : List QgsField) (fieldName : String) : Int :=
  if fieldName = "" then -1
  else
    match firstIdxWhere (fun f => f.name = fieldName) fields with
    | some i => (i : Int)
    | none =>
      match firstIdxWhere (fun f => strLower f.name = strLower fieldName) fields with
      | some i => (i : Int)
      | none =>
        match firstIdxWhere (fun f => strLower f.fieldAlias = strLower fieldName) fields with
        | some i => (i : Int)
        | none => -1

def dummyField : QgsField := ⟨"", ""⟩

/-! ## Primary-key resolution (layer.py `LayerSource.get_pk_attr_name`) -/

inductive LayerSourceError where
  | expectedVectorLayer
  | unsupportedPrimaryKey (msg : String)
  deriving Repr, DecidableEq

structure PkLayer where
  layerType : LayerType
  fields : List QgsField
  pkIndexes : List Nat
  deriving Repr, DecidableEq

/-- The branch of `get_pk_attr_name` selecting the candidate name from the
provider's primary-key attribute indexes, with the case-insensitive `fid`
fallback when no primary key is reported. -/
def pkStep (fields : List QgsField) : List Nat → Except LayerSourceError String
  | [i] => Except.ok (fields.getD i dummyField).name
  | [] =>
    let fidIdx := lookupField fields "fid"
    if 0 ≤ fidIdx ∧ strLower (fields.getD fidIdx.toNat dummyField).name = "fid" then
      Except.ok (fields.getD fidIdx.toNat dummyField).name
    else
      Except.ok ""
  | _ =>
    Except.error (LayerSourceError.unsupportedPrimaryKey
      "Composite (multi-column) primary keys are not supported!")

/-- The closing checks of `get_pk_attr_name`: an empty resolved name or a
name containing a comma raises `UnsupportedPrimaryKeyError`. -/
def pkPost (pkAttrName : String) : Except LayerSourceError String :=
  if pkAttrName = "" then
    Except.error (LayerSourceError.unsupportedPrimaryKey
      "Layer neither has a primary key, nor an attribute fid!")
  else if strContainsChar pkAttrName ',' then
    Except.error (LayerSourceError.unsupportedPrimaryKey
      "Comma in field name is not allowed!")
  else
    Except.ok pkAttrName

def getPkAttrName (layer : PkLayer) : Except LayerSourceError String :=
  if layer.layerType ≠ LayerType.vector then
    Except.error LayerSourceError.expectedVectorLayer
  else
    match pkStep layer.fields layer.pkIndexes with
    | Except.error e => Except.error e
    | Except.ok pkAttrName => pkPost pkAttrName

/-! ## Synthetic FID probing (offliners.py `PythonMiniOffliner.create_layer`)

The Python loop starts with `fid = "fid"`, `counter = 1`, and while the
provider fields contain the candidate it moves on to `fid_1`, `fid_2`, …,
raising once `counter` reaches `10000` right after the increment.  The
fuel argument only makes the translation structurally recursive; started
with fuel `10000` it never runs out before the counter check fires. -/

def findFidNameAux (fields : List QgsField) : Nat → Nat → String → Except String String
  | 0, _, _ => Except.error "Cannot determine usable FID field name for GPKG"
  | fuel + 1, counter, fid =>
    if lookupField fields fid ≥ 0 then
      if counter + 1 = 10000 then
        Except.error "Cannot determine usable FID field name for GPKG"
      else
        findFidNameAux fields fuel (counter + 1) ("fid_" ++ toString counter)
    else
      Except.ok fid

def findFidName (fields : List QgsField) : Except String String :=
  findFidNameAux fields 10000 1 "fid"

/-! ## Layer policy (layer.py `LayerSource`)

`PolicyLayer` captures the layer attributes the policy reads.  Library
behaviour is carried as data: `metadataPath` is the provider metadata's
decoded `path`, `encodeUriAt` re-encodes the URI after swapping the path,
`writePath` is the project path resolver, `vectorTileUrl` is the `url`
parameter of a vector-tile URI, `badLayerSource` the bad-layer-handler
entry.  The filesystem is a map from path to file content. -/

abbrev FS := String → Option Nat

def fsUpdate (fs : FS) (p : String) (c : Nat) : FS :=
  fun q => if q = p then some c else fs q

structure PolicyLayer where
  layerType : LayerType
  providerName : Option String
  providerType : String
  source : String
  isValid : Bool
  metadataPath : String
  hasProviderMetadata : Bool
  encodeUriAt : String → String
  vectorTileUrl : String
  writePath : String → String
  badLayerSource : Option String

def filename (l : PolicyLayer) : String :=
  if l.layerType = LayerType.vectorTile then l.vectorTileUrl
  else if l.providerName = none then ""
  else
    let f := l.metadataPath
    let resolved := l.writePath f
    if strStarts resolved "localized:" then strDrop resolved 10 else f

def isFile (l : PolicyLayer) (fs : FS) : Bool :=
  (fs (filename l)).isSome

def isVirtual (l : PolicyLayer) : Bool :=
  l.providerName = some "virtual"

def isSupported (l : PolicyLayer) : Bool :=
  !(strEnds l.source "ecw")

def isLocalizedPath (l : PolicyLayer) : Bool :=
  let fromResolver := strStarts (l.writePath l.metadataPath) "localized:"
  match l.badLayerSource with
  | some s =>
    if s = "" then fromResolver
    else
      strStarts s "localized:" || strStarts s "file:localized:" ||
        strContainsSub s "url=file:localized:"
  | none => fromResolver

def defaultAction (l : PolicyLayer) (fs : FS) : SyncAction :=
  if isVirtual l then SyncAction.noAction
  else if isFile l fs then SyncAction.copy
  else if !(isSupported l) then SyncAction.remove
  else if l.providerType = "postgres" then SyncAction.offline
  else SyncAction.noAction

def cableAction (l : PolicyLayer) (persisted : Option SyncAction) (fs : FS) : SyncAction :=
  persisted.getD (defaultAction l fs)

/-! ## File copy (layer.py `LayerSource.copy`)

`sidecars` models `QgsFileUtils.sidecarFilesForPath`, the set of sidecar
files existing on disk next to the primary file; the loop condition and the
URI rewrite mirror the source.  `shutil.copy` raises when the source path
does not exist, hence the `Except`. -/

inductive CopyError where
  | sourceMissing
  deriving Repr, DecidableEq

def pathBase (p : String) : String :=
  String.mk ((p.data.reverse.takeWhile (fun c => c ≠ '/')).reverse)

def destPath (targetPath f : String) : String :=
  targetPath ++ "/" ++ pathBase f

def afterChar : List Char → Char → Option (List Char)
  | [], _ => none
  | a :: as, c => if a = c then some as else afterChar as c

def sourceSuffix (s : String) : String :=
  match afterChar s.data '|' with
  | some r => String.mk r
  | none => ""

def copyFiles (targetPath : String) (keepExistent : Bool) :
    List String → FS → Except CopyError FS
  | [], fs => Except.ok fs
  | f :: rest, fs =>
    let dest := destPath targetPath f
    if !keepExistent || (fs dest).isNone then
      match fs f with
      | none => Except.error CopyError.sourceMissing
      | some c => copyFiles targetPath keepExistent rest (fsUpdate fs dest c)
    else
      copyFiles targetPath keepExistent rest fs

def computeNewSource (l : PolicyLayer) (targetPath fileName : String) : String :=
  let suffix := sourceSuffix l.source
  let joined := targetPath ++ "/" ++ fileName
  let ns := if l.hasProviderMetadata then l.encodeUriAt joined else ""
  if ns = "" then
    -- the spatialite comparison in the source reads `dataProvider().name ==
    -- "spatialite"` on the bound method object, which is never true, and the
    -- vector-tile branch builds a URI without assigning `new_source`
    if l.layerType = LayerType.vectorTile then ""
    else if suffix = "" then joined
    else joined ++ "|" ++ suffix
  else ns

structure CopyOutcome where
  returned : Option (List String)
  fs : FS
  newSource : Option String

def filesToCopy (l : PolicyLayer) (sidecars : List String) : List String :=
  if sidecars.contains (filename l) then sidecars else sidecars ++ [filename l]

def layerCopy (l : PolicyLayer) (sidecars : List String) (targetPath : String)
    (copiedFiles : List String) (keepExistent : Bool) (fs : FS) :
    Except CopyError CopyOutcome :=
  if !(isFile l fs) then Except.ok ⟨none, fs, none⟩
  else
    match copyFiles targetPath keepExistent (filesToCopy l sidecars) fs with
    | Except.error e => Except.error e
    | Except.ok fs2 =>
      Except.ok ⟨some copiedFiles, fs2,
        some (computeNewSource l targetPath (pathBase (filename l)))⟩

/-! ## Datasource consolidation (offliners.py `PythonMiniOffliner`)

Geometry is modelled with integer coordinates; `transformRect` stands for
the coordinate transform from the project CRS into the layer CRS, and
`sha` for the SHA-256 hex digest of a connection string.  `dataSourceUri`
is the provider URI with the row filter already cleared, matching the
`setSubsetString("")` performed before hashing. -/

structure Rect where
  xmin : Int
  ymin : Int
  xmax : Int
  ymax : Int
  deriving Repr, DecidableEq

structure BBox where
  rect : Rect
  finite : Bool
  deriving Repr, DecidableEq

structure Feat where
  fid : Nat
  x : Int
  y : Int
  deriving Repr, DecidableEq

def inRect (r : Rect) (f : Feat) : Bool :=
  r.xmin ≤ f.x && f.x ≤ r.xmax && r.ymin ≤ f.y && f.y ≤ r.ymax

structure OffLayer where
  id : Nat
  layerType : LayerType
  isValid : Bool
  dataSourceUri : String
  subsetString : String
  geometryType : GeometryType
  features : List Feat
  transformRect : Rect → Rect

def dummyOffLayer : OffLayer :=
  ⟨0, LayerType.other, false, "", "", GeometryType.unknownGeom, [], fun r => r⟩

def matchesFilter : Option Rect → Feat → Bool
  | none, _ => true
  | some r, f => inRect r f

def convertToOfflineLayerFeatures (layer : OffLayer) (_featureRequest : Option Rect) :
    List Feat :=
  -- `convert_to_offline_layer` rebinds `feature_request = QgsFeatureRequest()`
  -- before scanning the provider, so the caller-supplied filter is discarded
  let featureRequest : Option Rect := none
  layer.features.filter (matchesFilter featureRequest)

def buildRequest (rep : OffLayer) (bbox : Option BBox) : Option Rect :=
  match bbox with
  | some b =>
    if b.finite &&
        !(rep.geometryType == GeometryType.nullGeom ||
          rep.geometryType == GeometryType.unknownGeom) then
      some (rep.transformRect b.rect)
    else
      none
  | none => none

def includedLayers (projLayers : List OffLayer) (offlineIds : Option (List Nat)) :
    List OffLayer :=
  projLayers.filter (fun l =>
    (l.layerType == LayerType.vector) && l.isValid &&
      (match offlineIds with
       | none => true
       | some ids => ids.contains l.id))

def firstKeys {α : Type} (key : α → String) : List α → List String
  | [] => []
  | a :: rest => key a :: (firstKeys key rest).filter (fun k => k ≠ key a)

def groupsOf {α : Type} (key : α → String) (ls : List α) : List (String × List α) :=
  (firstKeys key ls).map (fun k => (k, ls.filter (fun l => key l == k)))

def layerKey (sha : String → String) (l : OffLayer) : String :=
  sha l.dataSourceUri

structure Migration where
  table : String
  features : List Feat

def migrateGroup (sha : String → String) (rep : OffLayer) (bbox : Option BBox) :
    Migration :=
  { table := sha rep.dataSourceUri
    features := convertToOfflineLayerFeatures rep (buildRequest rep bbox) }

def offlineSource (gpkgPath ident : String) : String :=
  gpkgPath ++ "|layername=" ++ ident

def computeOfflineTitle (projectTitle fileBaseName : String) : String :=
  let t := if projectTitle = "" then fileBaseName else projectTitle
  t ++ (t ++ " (offline)")

structure ConvertResult where
  createdTables : List String
  migrations : List Migration
  updates : List (Nat × String)
  restoredSubsets : List (Nat × String)
  newTitle : String

def convertProject (sha : String → String) (gpkgPath : String)
    (projLayers : List OffLayer) (offlineIds : Option (List Nat))
    (bbox : Option BBox) (projectTitle fileBaseName : String) : ConvertResult :=
  let inc := includedLayers projLayers offlineIds
  let groups := groupsOf (layerKey sha) inc
  { createdTables := groups.map (fun g => sha ((g.2).headD dummyOffLayer).dataSourceUri)
    migrations := groups.map (fun g => migrateGroup sha ((g.2).headD dummyOffLayer) bbox)
    updates := groups.flatMap (fun g =>
      let src := offlineSource gpkgPath (sha ((g.2).headD dummyOffLayer).dataSourceUri)
      (g.2).map (fun m => (m.id, src)))
    restoredSubsets := groups.flatMap (fun g => (g.2).map (fun m => (m.id, m.subsetString)))
    newTitle := computeOfflineTitle projectTitle fileBaseName }

/-! ## Packaging pipeline (offline_converter.py `OfflineConverter.convert`)

`convert` snapshots the live project to a temporary backup file, runs
`_convert` inside a `try`, and in the `finally` block — reached on normal
return, `PackagingFailedError` and `PackagingCanceledError` alike — clears
the live project and re-opens it from the backup when
`reload_original_project` is enabled. -/

inductive PackagingOutcome where
  | success
  | failed (reason : String)
  | canceled
  deriving Repr, DecidableEq

def convertRun {σ β : Type} (reloadOriginalProject : Bool)
    (body : σ → PackagingOutcome × σ) (makeTempQgisFile : σ → β)
    (openProject : β → σ) (project : σ) : PackagingOutcome × σ :=
  let backup := makeTempQgisFile project
  let bodyResult := body project
  (bodyResult.1, if reloadOriginalProject then openProject backup else bodyResult.2)

/-! ## Relationship linker (offline_converter.py
`OfflineConverter.post_process_value_relation_fields`)

`snapshot` is `__layer_data_by_id` restricted to name and source;
`fallbackRefId` stands for the library call
`QgsValueRelationFieldFormatter.resolveLayer(...)` followed by reading its
`remoteLayerId` custom property (`none` when the resolver returned no
layer). -/

structure SnapData where
  name : String
  source : String
  deriving Repr, DecidableEq

structure PLayer where
  id : String
  name : String
  remoteSourceProp : Option String
  deriving Repr, DecidableEq

def lookupSnap (snapshot : List (String × SnapData)) (k : String) : Option SnapData :=
  (snapshot.find? (fun e => e.1 == k)).map Prod.snd

inductive ValueRelationFix where
  | rewritten (newId : String)
  | unresolvedWarning
  deriving Repr, DecidableEq

def strictMatch (snap : SnapData) (l : PLayer) : Bool :=
  l.remoteSourceProp == some snap.source

def looseMatch (snap : SnapData) (l : PLayer) : Bool :=
  l.name == snap.name

def effectiveRefId (snapshot : List (String × SnapData)) (origRefId : String)
    (fallbackRefId : Option String) : String :=
  if (lookupSnap snapshot origRefId).isSome then origRefId
  else fallbackRefId.getD origRefId

def resolveReferencedLayer (snapshot : List (String × SnapData))
    (projLayers : List PLayer) (origRefId : String)
    (fallbackRefId : Option String) : ValueRelationFix :=
  match lookupSnap snapshot (effectiveRefId snapshot origRefId fallbackRefId) with
  | none => ValueRelationFix.unresolvedWarning
  | some oData =>
    match projLayers.find? (fun l => strictMatch oData l || looseMatch oData l) with
    | some l =>
      if l.id = "" then ValueRelationFix.unresolvedWarning
      else ValueRelationFix.rewritten l.id
    | none => ValueRelationFix.unresolvedWarning

/-! ## Concrete instances used by counterexamples and witnesses -/

def c2Layer : OffLayer :=
  { id := 1
    layerType := LayerType.vector
    isValid := true
    dataSourceUri := "PG:service=geo table=rivers"
    subsetString := ""
    geometryType := GeometryType.polygon
    features := [⟨1, 0, 0⟩, ⟨2, 100, 100⟩]
    transformRect := fun r => r }

def c2BBox : BBox := ⟨⟨-1, -1, 1, 1⟩, true⟩

def c3Layer : PkLayer := ⟨LayerType.vector, [⟨"FID", ""⟩], []⟩

def c5Layer : PolicyLayer :=
  { layerType := LayerType.raster
    providerName := some "gdal"
    providerType := "gdal"
    source := "localized_data/ortho.tif"
    isValid := true
    metadataPath := "localized_data/ortho.tif"
    hasProviderMetadata := true
    encodeUriAt := fun p => p
    vectorTileUrl := ""
    writePath := fun p => "localized:" ++ p
    badLayerSource := none }

def c5FS : FS := fun p => if p = "localized_data/ortho.tif" then some 7 else none

def c5PgLayer : PolicyLayer :=
  { layerType := LayerType.vector
    providerName := some "postgres"
    providerType := "postgres"
    source := "service=geo table=rivers"
    isValid := true
    metadataPath := ""
    hasProviderMetadata := false
    encodeUriAt := fun p => p
    vectorTileUrl := ""
    writePath := fun p => p
    badLayerSource := none }

def emptyFS : FS := fun _ => none

def c8Layer : PolicyLayer :=
  { layerType := LayerType.vector
    providerName := some "ogr"
    providerType := "ogr"
    source := "src/airports.gpkg"
    isValid := true
    metadataPath := "src/airports.gpkg"
    hasProviderMetadata := false
    encodeUriAt := fun p => p
    vectorTileUrl := ""
    writePath := fun p => p
    badLayerSource := none }

def c8FS : FS := fun p => if p = "src/airports.gpkg" then some 1 else none

def c9Layer : PolicyLayer :=
  { layerType := LayerType.raster
    providerName := some "wms"
    providerType := "wms"
    source := "type=xyz&url=https://tile.example.com/%7Bz%7D/%7Bx%7D/%7By%7D.png"
    isValid := true
    metadataPath := ""
    hasProviderMetadata := false
    encodeUriAt := fun p => p
    vectorTileUrl := ""
    writePath := fun p => p
    badLayerSource := none }

def c7Snapshot : List (String × SnapData) := [("B", ⟨"borders", "PG:borders"⟩)]

def c7Layers : List PLayer :=
  [⟨"l1", "borders", some "other-source"⟩, ⟨"l2", "unrelated", some "PG:borders"⟩]

def c1LayerA : OffLayer :=
  { id := 1
    layerType := LayerType.vector
    isValid := true
    dataSourceUri := "PG:table=rivers"
    subsetString := "kind = 1"
    geometryType := GeometryType.line
    features := []
    transformRect := fun r => r }

def c1LayerB : OffLayer :=
  { id := 2
    layerType := LayerType.vector
    isValid := true
    dataSourceUri := "PG:table=rivers"
    subsetString := "kind = 2"
    geometryType := GeometryType.line
    features := []
    transformRect := fun r => r }

def c1LayerC : OffLayer :=
  { id := 3
    layerType := LayerType.vector
    isValid := true
    dataSourceUri := "PG:table=lakes"
    subsetString := ""
    geometryType := GeometryType.polygon
    features := []
    transformRect := fun r => r }

def fidCandidate : Nat → String
  | 0 => "fid"
  | n + 1 => "fid_" ++ toString (n + 1)

/-! # Theorems -/

/-- C10: after the Python mini offliner finishes, the project title is the
effective original title `t` (falling back to the file base name when the
title is empty) concatenated with `t` and `" (offline)"` — the title text
appears twice — and in particular differs from the original title. -/
theorem c10_offline_title_duplication (sha : String → String) (gpkgPath : String)
    (projLayers : List OffLayer) (offlineIds : Option (List Nat)) (bbox : Option BBox)
    (projectTitle fileBaseName : String) :
    (convertProject sha gpkgPath projLayers offlineIds bbox projectTitle
        fileBaseName).newTitle =
      (if projectTitle = "" then fileBaseName else projectTitle) ++
        (if projectTitle = "" then fileBaseName else projectTitle) ++ " (offline)" ∧
    (convertProject sha gpkgPath projLayers offlineIds bbox projectTitle
        fileBaseName).newTitle ≠
      (if projectTitle = "" then fileBaseName else projectTitle) := by
  constructor
  · show computeOfflineTitle projectTitle fileBaseName = _
    rw [computeOfflineTitle, String.append_assoc]
  · show computeOfflineTitle projectTitle fileBaseName ≠ _
    intro h
    have hlen := congrArg String.length h
    rw [computeOfflineTitle] at hlen
    have hoff : (" (offline)" : String).length = 10 := rfl
    simp only [String.length_append, hoff] at hlen
    omega

/-- C4: with original-project reloading enabled, `convert` ends with the live
project reloaded from the pre-run backup on every exit path — the outcome of
the `_convert` body (success, `PackagingFailedError` or
`PackagingCanceledError`) is passed through unchanged while the final live
project state is always the reloaded backup, never the state the body left
behind. -/
theorem c4_original_project_restored {σ β : Type} (body : σ → PackagingOutcome × σ)
    (makeTempQgisFile : σ → β) (openProject : β → σ) (project : σ) :
    (convertRun true body makeTempQgisFile openProject project).1 = (body project).1 ∧
    (convertRun true body makeTempQgisFile openProject project).2 =
      openProject (makeTempQgisFile project) := by
  exact ⟨rfl, rfl⟩

/-- C2: evaluation at the failing input.  For a polygon layer and a finite
bounding box, `_convert_to_offline_project` builds a feature request whose
filter rectangle excludes the feature at `(100, 100)`, yet the migration
copies both features, because `convert_to_offline_layer` rebinds its
`feature_request` parameter to a fresh empty request before scanning the
provider. -/
theorem c2_bbox_filter_discarded :
    (convertProject (fun s => "h" ++ s) "data.gpkg" [c2Layer] none (some c2BBox)
        "T" "base").migrations.map Migration.features =
      [[⟨1, 0, 0⟩, ⟨2, 100, 100⟩]] ∧
    buildRequest c2Layer (some c2BBox) = some ⟨-1, -1, 1, 1⟩ ∧
    matchesFilter (buildRequest c2Layer (some c2BBox)) ⟨2, 100, 100⟩ = false := by
  exact ⟨rfl, rfl, rfl⟩

/-- C5 counterexample: a file-backed layer under a localized search path.
`c5Layer` resolves through the path resolver to a `localized:` path, the
file exists, and the layer is neither virtual, nor unsupported, nor
postgres-backed — the claim mandates a non-`Copy` default (`NoAction`), but
`default_action` answers `Copy` because it never consults
`is_localized_path`. -/
theorem c5_counterexample :
    defaultAction c5Layer c5FS = SyncAction.copy ∧
    cableAction c5Layer none c5FS = SyncAction.copy ∧
    isFile c5Layer c5FS = true ∧
    isLocalizedPath c5Layer = true ∧
    isVirtual c5Layer = false ∧
    isSupported c5Layer = true ∧
    c5Layer.providerType ≠ "postgres" := by
  refine ⟨rfl, rfl, rfl, rfl, by decide, rfl, by decide⟩

/-- C5 (amended): with no persisted cable action the default is computed by
the cascade: `NoAction` for a virtual provider; otherwise `Copy` for any
file-backed layer (the localized-path status is NOT consulted); otherwise
`Remove` when the source ends in `ecw`; otherwise `Offline` for the
`postgres` provider; otherwise `NoAction`. -/
theorem c5_default_action_amended (l : PolicyLayer) (fs : FS) :
    cableAction l none fs = defaultAction l fs ∧
    (isVirtual l = true → defaultAction l fs = SyncAction.noAction) ∧
    (isVirtual l = false → isFile l fs = true → defaultAction l fs = SyncAction.copy) ∧
    (isVirtual l = false → isFile l fs = false → strEnds l.source "ecw" = true →
      defaultAction l fs = SyncAction.remove) ∧
    (isVirtual l = false → isFile l fs = false → strEnds l.source "ecw" = false →
      l.providerType = "postgres" → defaultAction l fs = SyncAction.offline) ∧
    (isVirtual l = false → isFile l fs = false → strEnds l.source "ecw" = false →
      l.providerType ≠ "postgres" → defaultAction l fs = SyncAction.noAction) := by
  refine ⟨rfl, ?_, ?_, ?_, ?_, ?_⟩ <;>
    intros <;> simp_all [defaultAction, isSupported]

/-- C5 witness: the amended cascade evaluated on a non-file, supported,
postgres-backed layer yields `Offline`. -/
theorem c5_witness :
    isVirtual c5PgLayer = false ∧ isFile c5PgLayer emptyFS = false ∧
    strEnds c5PgLayer.source "ecw" = false ∧ c5PgLayer.providerType = "postgres" ∧
    defaultAction c5PgLayer emptyFS = SyncAction.offline :=
  ⟨by decide, rfl, by decide, rfl,
    (c5_default_action_amended c5PgLayer emptyFS).2.2.2.2.1 (by decide) rfl
      (by decide) rfl⟩

/-- C9 counterexample: for a non-file-backed layer (a tiled web raster),
`copy` performs no filesystem change and no source rewrite, but it returns
`None` — not the accumulator that was passed in — contradicting the claim
that the returned accumulator equals the one passed in. -/
theorem c9_counterexample :
    isFile c9Layer emptyFS = false ∧
    layerCopy c9Layer [] "target" ["acc.gpkg"] false emptyFS =
      Except.ok ⟨none, emptyFS, none⟩ ∧
    (none : Option (List String)) ≠ some ["acc.gpkg"] := by
  refine ⟨rfl, rfl, by decide⟩

/-- C9 (amended): for every layer that is not file-backed, `copy` is a
no-op on the filesystem and on the layer's source, and it returns `None`
rather than the passed accumulator (so the caller's accumulator variable is
replaced by `None`). -/
theorem c9_copy_non_file_noop_amended (l : PolicyLayer) (sidecars : List String)
    (targetPath : String) (copiedFiles : List String) (keepExistent : Bool) (fs : FS)
    (h : isFile l fs = false) :
    layerCopy l sidecars targetPath copiedFiles keepExistent fs =
      Except.ok ⟨none, fs, none⟩ := by
  simp [layerCopy, h]

/-- C9 witness: the amended statement applied to the concrete tiled web
raster layer. -/
theorem c9_witness :
    isFile c9Layer emptyFS = false ∧
    layerCopy c9Layer [] "target" ["acc.gpkg"] true emptyFS =
      Except.ok ⟨none, emptyFS, none⟩ :=
  ⟨rfl, c9_copy_non_file_noop_amended c9Layer [] "target" ["acc.gpkg"] true emptyFS rfl⟩

/-- Helper: `find?` returns the head of the first matching position when
everything before it fails the predicate. -/
theorem find?_of_forall_not {α : Type} {p : α → Bool} :
    ∀ (pre : List α) (a : α) (post : List α), (∀ x ∈ pre, p x = false) → p a = true →
      (pre ++ a :: post).find? p = some a := by
  intro pre
  induction pre with
  | nil => intro a post _ ha; simp [List.find?, ha]
  | cons x xs ih =>
    intro a post hpre ha
    have hx : p x = false := hpre x (List.mem_cons_self x xs)
    simp only [List.cons_append, List.find?, hx]
    exact ih a post (fun y hy => hpre y (List.mem_cons_of_mem x hy)) ha

/-- C7 counterexample: snapshot layer `B` has source `PG:borders`; the
project holds `l1` (matching only loosely, by name) before `l2` (matching
strictly, by `remoteSource`).  The linker rewrites to `l1`, although the
claim's strict-match-first rule would pick `l2`. -/
theorem c7_counterexample :
    resolveReferencedLayer c7Snapshot c7Layers "B" none =
      ValueRelationFix.rewritten "l1" ∧
    strictMatch ⟨"borders", "PG:borders"⟩ ⟨"l2", "unrelated", some "PG:borders"⟩ = true ∧
    (⟨"l2", "unrelated", some "PG:borders"⟩ : PLayer) ∈ c7Layers ∧
    strictMatch ⟨"borders", "PG:borders"⟩ ⟨"l1", "borders", some "other-source"⟩ = false ∧
    looseMatch ⟨"borders", "PG:borders"⟩ ⟨"l1", "borders", some "other-source"⟩ = true := by
  refine ⟨rfl, rfl, ?_, by decide, rfl⟩
  simp [c7Layers]

/-- C7 (amended): the linker scans the project layers in order and rewrites
the widget to the id of the FIRST layer that matches either strictly (its
`remoteSource` bookkeeping property equals the snapshot source) or loosely
(its name equals the snapshot name) — strict matching is only preferred
within a single candidate, not across the project.  When the reference is
unknown to the snapshot, or no layer matches, or the matched id is empty, a
warning is emitted and the configuration is left untouched. -/
theorem c7_value_relation_resolution_amended (snapshot : List (String × SnapData))
    (projLayers : List PLayer) (origRefId : String) (fallbackRefId : Option String) :
    (lookupSnap snapshot (effectiveRefId snapshot origRefId fallbackRefId) = none →
      resolveReferencedLayer snapshot projLayers origRefId fallbackRefId =
        ValueRelationFix.unresolvedWarning) ∧
    (∀ oData,
      lookupSnap snapshot (effectiveRefId snapshot origRefId fallbackRefId) = some oData →
      (∀ l ∈ projLayers, (strictMatch oData l || looseMatch oData l) = false) →
      resolveReferencedLayer snapshot projLayers origRefId fallbackRefId =
        ValueRelationFix.unresolvedWarning) ∧
    (∀ oData pre L post,
      lookupSnap snapshot (effectiveRefId snapshot origRefId fallbackRefId) = some oData →
      projLayers = pre ++ L :: post →
      (∀ l ∈ pre, (strictMatch oData l || looseMatch oData l) = false) →
      (strictMatch oData L || looseMatch oData L) = true →
      L.id ≠ "" →
      resolveReferencedLayer snapshot projLayers origRefId fallbackRefId =
        ValueRelationFix.rewritten L.id) := by
  refine ⟨?_, ?_, ?_⟩
  · intro h
    simp only [resolveReferencedLayer]
    rw [h]
  · intro oData h hall
    have hnone : projLayers.find? (fun l => strictMatch oData l || looseMatch oData l)
        = none := List.find?_eq_none.mpr (fun x hx => by simp [hall x hx])
    simp only [resolveReferencedLayer]
    rw [h]
    simp only [hnone]
  · intro oData pre L post h heq hpre hL hid
    have hfind : projLayers.find? (fun l => strictMatch oData l || looseMatch oData l)
        = some L := heq ▸ find?_of_forall_not pre L post hpre hL
    simp only [resolveReferencedLayer]
    rw [h]
    simp only [hfind]
    simp [hid]

/-- C7 witness: the amended rule applied to the counterexample
configuration with the strict layer first. -/
theorem c7_witness :
    lookupSnap c7Snapshot (effectiveRefId c7Snapshot "B" none) =
      some ⟨"borders", "PG:borders"⟩ ∧
    resolveReferencedLayer c7Snapshot
      [⟨"l2", "unrelated", some "PG:borders"⟩, ⟨"l1", "borders", some "other-source"⟩]
      "B" none = ValueRelationFix.rewritten "l2" :=
  ⟨rfl,
    (c7_value_relation_resolution_amended c7Snapshot
        [⟨"l2", "unrelated", some "PG:borders"⟩, ⟨"l1", "borders", some "other-source"⟩]
        "B" none).2.2 ⟨"borders", "PG:borders"⟩ []
      ⟨"l2", "unrelated", some "PG:borders"⟩
      [⟨"l1", "borders", some "other-source"⟩] rfl rfl (by simp) rfl (by decide)⟩

/-- Helper: while every candidate before `n` is taken, the probing loop
reaches probe `n` with counter `n + 1` and fuel `10000 - n`. -/
theorem findFid_reaches (fields : List QgsField) :
    ∀ n, n ≤ 9998 → (∀ m, m < n → lookupField fields (fidCandidate m) ≥ 0) →
      findFidName fields = findFidNameAux fields (10000 - n) (n + 1) (fidCandidate n) := by
  intro n
  induction n with
  | zero => intro _ _; rfl
  | succ n ih =>
    intro hn htaken
    have hstep := ih (by omega) (fun m hm => htaken m (by omega))
    rw [hstep]
    have hfuel : 10000 - n = (10000 - (n + 1)) + 1 := by omega
    rw [hfuel, findFidNameAux]
    rw [if_pos (htaken n (by omega))]
    rw [if_neg (by omega : ¬(n + 1 + 1 = 10000))]
    rfl

/-- C6: the synthetic primary-key name is probed through the sequence
`fid`, `fid_1`, `fid_2`, …: the first candidate not present among the
provider's field names (within the loop's reach, candidates `0..9998`) is
returned, and when every one of those candidates is taken the probing
stops with an error instead of looping on. -/
theorem c6_fid_probing (fields : List QgsField) :
    (∀ n, n ≤ 9998 → (∀ m, m < n → lookupField fields (fidCandidate m) ≥ 0) →
      lookupField fields (fidCandidate n) < 0 →
      findFidName fields = Except.ok (fidCandidate n)) ∧
    ((∀ n, n ≤ 9998 → lookupField fields (fidCandidate n) ≥ 0) →
      findFidName fields = Except.error "Cannot determine usable FID field name for GPKG") := by
  constructor
  · intro n hn htaken hfree
    rw [findFid_reaches fields n hn htaken]
    have hfuel : 10000 - n = (9999 - n) + 1 := by omega
    rw [hfuel, findFidNameAux]
    rw [if_neg (by omega : ¬(lookupField fields (fidCandidate n) ≥ 0))]
  · intro hall
    rw [findFid_reaches fields 9998 (by omega) (fun m hm => hall m (by omega))]
    show findFidNameAux fields (1 + 1) 9999 (fidCandidate 9998) = _
    rw [findFidNameAux]
    rw [if_pos (hall 9998 (by omega))]
    rw [if_pos (by omega : 9999 + 1 = 10000)]

/-- C6 witness: a source layer with an existing `fid` field receives the
synthetic key name `fid_1`. -/
theorem c6_witness :
    lookupField [QgsField.mk "fid" ""] (fidCandidate 0) ≥ 0 ∧
    lookupField [QgsField.mk "fid" ""] (fidCandidate 1) < 0 ∧
    findFidName [QgsField.mk "fid" ""] = Except.ok (fidCandidate 1) :=
  ⟨by decide, by decide,
    (c6_fid_probing [QgsField.mk "fid" ""]).1 1 (by omega)
      (fun m hm => by
        have hm0 : m = 0 := by omega
        subst hm0
        decide)
      (by decide)⟩

theorem firstIdxWhere_some {α : Type} {p : α → Bool} :
    ∀ {l : List α} {i : Nat}, firstIdxWhere p l = some i →
      ∃ h : i < l.length, p (l.get ⟨i, h⟩) = true := by
  intro l
  induction l with
  | nil => intro i h; simp [firstIdxWhere] at h
  | cons a rest ih =>
    intro i h
    by_cases ha : p a = true
    · simp [firstIdxWhere, ha] at h
      subst h
      exact ⟨Nat.succ_pos _, ha⟩
    · simp [firstIdxWhere, ha] at h
      obtain ⟨j, hj, rfl⟩ := h
      obtain ⟨hlt, hp⟩ := ih hj
      exact ⟨Nat.succ_lt_succ hlt, hp⟩

theorem firstIdxWhere_none {α : Type} {p : α → Bool} :
    ∀ {l : List α}, firstIdxWhere p l = none ↔ ∀ x ∈ l, p x = false := by
  intro l
  induction l with
  | nil => simp [firstIdxWhere]
  | cons a rest ih =>
    by_cases ha : p a = true <;> simp [firstIdxWhere, ha, ih]

/-- Helper: the guard of the `fid` fallback in `get_pk_attr_name` holds
exactly when some field's lowercased name is `fid` (exact and
case-insensitive name searches precede the alias search, and the guard
re-checks the found field's lowercased name). -/
theorem fid_lookup_iff (fields : List QgsField) :
    (0 ≤ lookupField fields "fid" ∧
        strLower (fields.getD (lookupField fields "fid").toNat dummyField).name = "fid") ↔
      ∃ f ∈ fields, strLower f.name = "fid" := by
  constructor
  · rintro ⟨hge, hlow⟩
    by_cases hlt : (lookupField fields "fid").toNat < fields.length
    · refine ⟨fields.get ⟨(lookupField fields "fid").toNat, hlt⟩, List.get_mem _ _ hlt, ?_⟩
      rw [List.getD_eq_getElem?_getD, List.getElem?_eq_getElem hlt] at hlow
      simpa using hlow
    · rw [List.getD_eq_getElem?_getD, List.getElem?_eq_none (by omega)] at hlow
      exact absurd hlow (by decide)
  · rintro ⟨f, hf, hlow⟩
    have hfid : ("fid" = "") = False := by simp
    rcases e1 : firstIdxWhere (fun f => f.name = "fid") fields with _ | i
    · rcases e2 : firstIdxWhere (fun f => strLower f.name = strLower "fid") fields with _ | j
      · exfalso
        have := firstIdxWhere_none.mp e2 f hf
        rw [show strLower "fid" = "fid" from rfl] at this
        simp [hlow] at this
      · obtain ⟨hlt, hp⟩ := firstIdxWhere_some e2
        have hlook : lookupField fields "fid" = (j : Int) := by
          unfold lookupField
          rw [if_neg (by simp), e1, e2]
        constructor
        · rw [hlook]; exact Int.ofNat_nonneg j
        · rw [hlook]
          rw [show ((j : Int)).toNat = j from rfl]
          rw [List.getD_eq_getElem?_getD, List.getElem?_eq_getElem hlt]
          have hci := of_decide_eq_true hp
          rw [show strLower "fid" = "fid" from rfl] at hci
          simpa using hci
    · obtain ⟨hlt, hp⟩ := firstIdxWhere_some e1
      have hlook : lookupField fields "fid" = (i : Int) := by
        unfold lookupField
        rw [if_neg (by simp), e1]
      constructor
      · rw [hlook]; exact Int.ofNat_nonneg i
      · rw [hlook]
        rw [show ((i : Int)).toNat = i from rfl]
        rw [List.getD_eq_getElem?_getD, List.getElem?_eq_getElem hlt]
        have hname := of_decide_eq_true hp
        have hget : fields[i] = fields.get ⟨i, hlt⟩ := rfl
        simp only [Option.getD_some, hget, hname]
        rfl

/-- Helper: a name whose ASCII lowercasing is `fid` cannot contain a
comma. -/
theorem no_comma_of_fid_lower {nm : String} (h : strLower nm = "fid") :
    strContainsChar nm ',' = false := by
  rw [Bool.eq_false_iff]
  intro hc
  obtain ⟨x, hx, hdec⟩ := List.any_eq_true.mp hc
  have hxc : x = ',' := of_decide_eq_true hdec
  subst hxc
  have hdata : nm.data.map lowerChar = ("fid" : String).data := congrArg String.data h
  have hmm : lowerChar ',' ∈ nm.data.map lowerChar := List.mem_map_of_mem _ hx
  rw [hdata] at hmm
  exact absurd hmm (by decide)

/-- Helper: with in-range index, `getD` is a member of the list. -/
theorem getD_mem_of_lt {l : List QgsField} {i : Nat} (h : i < l.length) :
    l.getD i dummyField ∈ l := by
  rw [List.getD_eq_getElem?_getD, List.getElem?_eq_getElem h]
  exact List.getElem_mem h

theorem pkPost_ok {nm : String} (hne : nm ≠ "") (hcomma : strContainsChar nm ',' = false) :
    pkPost nm = Except.ok nm := by
  unfold pkPost
  rw [if_neg hne, if_neg (by simp [hcomma])]

theorem pkPost_comma {nm : String} (hne : nm ≠ "")
    (hcomma : strContainsChar nm ',' = true) :
    pkPost nm = Except.error (LayerSourceError.unsupportedPrimaryKey
      "Comma in field name is not allowed!") := by
  unfold pkPost
  rw [if_neg hne, if_pos hcomma]

/-- C3 counterexample: a vector layer with zero provider primary-key
columns and a single field named `FID` (no field literally named `fid`).
The claim requires `UnsupportedPrimaryKeyError`, but resolution succeeds
with `"FID"` because the `fid` fallback is case-insensitive. -/
theorem c3_counterexample :
    getPkAttrName c3Layer = Except.ok "FID" ∧
    c3Layer.pkIndexes = [] ∧
    ∀ f ∈ c3Layer.fields, f.name ≠ "fid" := by
  refine ⟨rfl, rfl, ?_⟩
  decide

/-- C3 (amended): on a non-vector layer resolution raises
`ExpectedVectorLayerError`.  On a vector layer with well-formed provider
metadata (non-empty field names, in-range primary-key indexes): a single
primary-key column resolves to its name when that name has no comma; zero
primary-key columns resolve to the actual name of a field whose LOWERCASED
name is `fid` when one exists; and `UnsupportedPrimaryKeyError` is raised
exactly when the provider reports more than one primary-key column, or
zero primary-key columns while no field's lowercased name is `fid`, or the
single primary-key column's name contains a comma. -/
theorem c3_pk_resolution_amended (layer : PkLayer)
    (hnames : ∀ f ∈ layer.fields, f.name ≠ "")
    (hidx : ∀ i ∈ layer.pkIndexes, i < layer.fields.length) :
    (layer.layerType ≠ LayerType.vector →
      getPkAttrName layer = Except.error LayerSourceError.expectedVectorLayer) ∧
    (layer.layerType = LayerType.vector →
      ((∀ i, layer.pkIndexes = [i] →
          strContainsChar (layer.fields.getD i dummyField).name ',' = false →
          getPkAttrName layer = Except.ok (layer.fields.getD i dummyField).name) ∧
        (layer.pkIndexes = [] → (∃ f ∈ layer.fields, strLower f.name = "fid") →
          ∃ f ∈ layer.fields, strLower f.name = "fid" ∧
            getPkAttrName layer = Except.ok f.name) ∧
        ((∃ msg, getPkAttrName layer =
            Except.error (LayerSourceError.unsupportedPrimaryKey msg)) ↔
          (2 ≤ layer.pkIndexes.length ∨
            (layer.pkIndexes = [] ∧ ¬∃ f ∈ layer.fields, strLower f.name = "fid") ∨
            (∃ i, layer.pkIndexes = [i] ∧
              strContainsChar (layer.fields.getD i dummyField).name ',' = true))))) := by
  constructor
  · intro h
    simp [getPkAttrName, h]
  · intro hvec
    have hbase : getPkAttrName layer =
        (match pkStep layer.fields layer.pkIndexes with
          | Except.error e => Except.error e
          | Except.ok pkAttrName => pkPost pkAttrName) := by
      simp [getPkAttrName, hvec]
    rcases hpk : layer.pkIndexes with _ | ⟨i, _ | ⟨j, rest⟩⟩
    · -- zero primary-key columns
      rw [hpk] at hbase
      by_cases hfid : ∃ f ∈ layer.fields, strLower f.name = "fid"
      · have hcond := (fid_lookup_iff layer.fields).mpr hfid
        have hstep : pkStep layer.fields [] =
            Except.ok (layer.fields.getD
              (lookupField layer.fields "fid").toNat dummyField).name := by
          simp only [pkStep]
          rw [if_pos hcond]
        have hnmlow : strLower (layer.fields.getD
            (lookupField layer.fields "fid").toNat dummyField).name = "fid" := hcond.2
        have hne : (layer.fields.getD
            (lookupField layer.fields "fid").toNat dummyField).name ≠ "" := by
          intro h0
          rw [h0] at hnmlow
          exact absurd hnmlow (by decide)
        have hcomma := no_comma_of_fid_lower hnmlow
        have hres : getPkAttrName layer = Except.ok (layer.fields.getD
            (lookupField layer.fields "fid").toNat dummyField).name := by
          rw [hbase, hstep]
          exact pkPost_ok hne hcomma
        have hin : (lookupField layer.fields "fid").toNat < layer.fields.length := by
          by_contra hout
          rw [List.getD_eq_getElem?_getD, List.getElem?_eq_none (by omega)] at hnmlow
          exact absurd hnmlow (by decide)
        refine ⟨?_, ?_, ?_⟩
        · intro i h'
          exact absurd h' (by simp)
        · intro _ _
          exact ⟨layer.fields.getD (lookupField layer.fields "fid").toNat dummyField,
            getD_mem_of_lt hin, hnmlow, hres⟩
        · rw [hres]
          simp [hfid]
      · have hcond : ¬(0 ≤ lookupField layer.fields "fid" ∧
            strLower (layer.fields.getD
              (lookupField layer.fields "fid").toNat dummyField).name = "fid") :=
          fun hc => hfid ((fid_lookup_iff layer.fields).mp hc)
        have hstep : pkStep layer.fields [] = Except.ok "" := by
          simp only [pkStep]
          rw [if_neg hcond]
        have hres : getPkAttrName layer = Except.error
            (LayerSourceError.unsupportedPrimaryKey
              "Layer neither has a primary key, nor an attribute fid!") := by
          rw [hbase, hstep]
          rfl
        refine ⟨?_, ?_, ?_⟩
        · intro i h'
          exact absurd h' (by simp)
        · intro _ hex
          exact absurd hex hfid
        · rw [hres]
          simp [hfid]
    · -- a single primary-key column
      rw [hpk] at hbase
      have him : i < layer.fields.length := hidx i (by rw [hpk]; exact List.mem_cons_self _ _)
      have hmem : layer.fields.getD i dummyField ∈ layer.fields := getD_mem_of_lt him
      have hne : (layer.fields.getD i dummyField).name ≠ "" := hnames _ hmem
      have hstep : pkStep layer.fields [i] =
          Except.ok (layer.fields.getD i dummyField).name := rfl
      by_cases hcomma : strContainsChar (layer.fields.getD i dummyField).name ',' = true
      · have hres : getPkAttrName layer = Except.error
            (LayerSourceError.unsupportedPrimaryKey
              "Comma in field name is not allowed!") := by
          rw [hbase, hstep]
          exact pkPost_comma hne hcomma
        refine ⟨?_, ?_, ?_⟩
        · intro i' h' hcomma'
          have hii : i = i' := by simpa using h'
          subst hii
          rw [hcomma'] at hcomma
          exact absurd hcomma (by decide)
        · intro h'
          exact absurd h' (by simp)
        · rw [hres]
          constructor
          · intro _
            exact Or.inr (Or.inr ⟨i, rfl, hcomma⟩)
          · intro _
            exact ⟨"Comma in field name is not allowed!", rfl⟩
      · have hres : getPkAttrName layer =
            Except.ok (layer.fields.getD i dummyField).name := by
          rw [hbase, hstep]
          exact pkPost_ok hne (by simpa using hcomma)
        refine ⟨?_, ?_, ?_⟩
        · intro i' h' _
          have hii : i = i' := by simpa using h'
          subst hii
          exact hres
        · intro h'
          exact absurd h' (by simp)
        · rw [hres]
          have hcf : strContainsChar (layer.fields.getD i dummyField).name ',' = false := by
            simpa using hcomma
          rw [List.getD_eq_getElem?_getD] at hcf
          simp [hcf]
    · -- composite primary key
      rw [hpk] at hbase
      have hres : getPkAttrName layer = Except.error
          (LayerSourceError.unsupportedPrimaryKey
            "Composite (multi-column) primary keys are not supported!") := by
        rw [hbase]
        rfl
      refine ⟨?_, ?_, ?_⟩
      · intro i' h'
        exact absurd h' (by simp)
      · intro h'
        exact absurd h' (by simp)
      · rw [hres]
        constructor
        · intro _
          refine Or.inl ?_
          simp
        · intro _
          exact ⟨"Composite (multi-column) primary keys are not supported!", rfl⟩

/-- C3 witness: a vector layer with the single primary-key column `gid`
resolves to `"gid"`, and a raster layer raises `ExpectedVectorLayerError`. -/
theorem c3_witness :
    (∀ f ∈ (⟨LayerType.vector, [⟨"gid", ""⟩], [0]⟩ : PkLayer).fields, f.name ≠ "") ∧
    getPkAttrName ⟨LayerType.vector, [⟨"gid", ""⟩], [0]⟩ = Except.ok "gid" ∧
    getPkAttrName ⟨LayerType.raster, [⟨"gid", ""⟩], [0]⟩ =
      Except.error LayerSourceError.expectedVectorLayer :=
  ⟨by decide,
    (c3_pk_resolution_amended ⟨LayerType.vector, [⟨"gid", ""⟩], [0]⟩ (by decide)
          (by decide)).2 rfl |>.1 0 rfl (by decide),
    (c3_pk_resolution_amended ⟨LayerType.raster, [⟨"gid", ""⟩], [0]⟩ (by decide)
          (by decide)).1 (by decide)⟩

theorem mem_firstKeys {α : Type} {key : α → String} :
    ∀ {ls : List α} {k : String}, k ∈ firstKeys key ls ↔ ∃ l ∈ ls, key l = k := by
  intro ls
  induction ls with
  | nil => intro k; simp [firstKeys]
  | cons a rest ih =>
    intro k
    simp only [firstKeys, List.mem_cons, List.mem_filter, ih]
    constructor
    · rintro (rfl | ⟨⟨l, hl, rfl⟩, _⟩)
      · exact ⟨a, Or.inl rfl, rfl⟩
      · exact ⟨l, Or.inr hl, rfl⟩
    · rintro ⟨l, hl, rfl⟩
      rcases hl with rfl | hl2
      · exact Or.inl rfl
      · by_cases hk : key l = key a
        · exact Or.inl hk
        · exact Or.inr ⟨⟨l, hl2, rfl⟩, by simpa using hk⟩

theorem nodup_firstKeys {α : Type} (key : α → String) :
    ∀ ls : List α, (firstKeys key ls).Nodup := by
  intro ls
  induction ls with
  | nil => simp [firstKeys]
  | cons a rest ih =>
    refine List.Nodup.cons ?_ (List.Nodup.filter _ ih)
    intro hmem
    have := (List.mem_filter.mp hmem).2
    simp at this

theorem filter_key_head {α : Type} (key : α → String) (ls : List α) (k : String) (d : α)
    (h : ∃ l ∈ ls, key l = k) :
    key ((ls.filter (fun l => key l == k)).headD d) = k ∧
    (ls.filter (fun l => key l == k)).headD d ∈ ls := by
  obtain ⟨l, hl, hk⟩ := h
  have hml : l ∈ ls.filter (fun l => key l == k) :=
    List.mem_filter.mpr ⟨hl, by simp [hk]⟩
  rcases e : ls.filter (fun l => key l == k) with _ | ⟨x, xs⟩
  · rw [e] at hml
    exact absurd hml (List.not_mem_nil _)
  · have hx : x ∈ ls.filter (fun l => key l == k) := by
      rw [e]
      exact List.mem_cons_self _ _
    have := List.mem_filter.mp hx
    exact ⟨by simpa using this.2, this.1⟩

/-- C1: the consolidation engine partitions the converted layers by the
hash of their cleared connection string: the created tables are pairwise
distinct and correspond exactly to the distinct hashes of the included
layers, the feature migration runs exactly once per created table, and
every included layer — not only the group representative — is repointed at
the offline source naming its own hash's table (so layers with equal
hashes receive the same new connection string). -/
theorem c1_datasource_groups_consolidated (sha : String → String) (gpkgPath : String)
    (projLayers : List OffLayer) (offlineIds : Option (List Nat)) (bbox : Option BBox)
    (title base : String) :
    (convertProject sha gpkgPath projLayers offlineIds bbox title base).createdTables.Nodup ∧
    (∀ h, h ∈ (convertProject sha gpkgPath projLayers offlineIds bbox title
          base).createdTables ↔
        ∃ l ∈ includedLayers projLayers offlineIds, sha l.dataSourceUri = h) ∧
    (convertProject sha gpkgPath projLayers offlineIds bbox title base).migrations.map
        Migration.table =
      (convertProject sha gpkgPath projLayers offlineIds bbox title base).createdTables ∧
    (∀ l ∈ includedLayers projLayers offlineIds,
      (l.id, offlineSource gpkgPath (sha l.dataSourceUri)) ∈
        (convertProject sha gpkgPath projLayers offlineIds bbox title base).updates) ∧
    (∀ u ∈ (convertProject sha gpkgPath projLayers offlineIds bbox title base).updates,
      ∃ l ∈ includedLayers projLayers offlineIds,
        u = (l.id, offlineSource gpkgPath (sha l.dataSourceUri))) := by
  have hct : (convertProject sha gpkgPath projLayers offlineIds bbox title
      base).createdTables = firstKeys (layerKey sha) (includedLayers projLayers offlineIds) := by
    show ((firstKeys (layerKey sha) (includedLayers projLayers offlineIds)).map
        (fun k => (k, (includedLayers projLayers offlineIds).filter
          (fun l => layerKey sha l == k)))).map
        (fun g => sha ((g.2).headD dummyOffLayer).dataSourceUri) = _
    rw [List.map_map]
    have hpt : ∀ k ∈ firstKeys (layerKey sha) (includedLayers projLayers offlineIds),
        ((fun g => sha ((g.2).headD dummyOffLayer).dataSourceUri) ∘
          (fun k => (k, (includedLayers projLayers offlineIds).filter
            (fun l => layerKey sha l == k)))) k = id k := by
      intro k hk
      have hex := mem_firstKeys.mp hk
      exact (filter_key_head (layerKey sha) _ k dummyOffLayer hex).1
    rw [List.map_congr_left hpt, List.map_id]
  refine ⟨?_, ?_, ?_, ?_, ?_⟩
  · rw [hct]
    exact nodup_firstKeys _ _
  · intro h
    rw [hct]
    exact mem_firstKeys
  · show ((groupsOf (layerKey sha) (includedLayers projLayers offlineIds)).map
        (fun g => migrateGroup sha ((g.2).headD dummyOffLayer) bbox)).map Migration.table = _
    rw [List.map_map]
    rfl
  · intro l hl
    have hk : layerKey sha l ∈ firstKeys (layerKey sha)
        (includedLayers projLayers offlineIds) := mem_firstKeys.mpr ⟨l, hl, rfl⟩
    have hhead := filter_key_head (layerKey sha) (includedLayers projLayers offlineIds)
      (layerKey sha l) dummyOffLayer ⟨l, hl, rfl⟩
    show _ ∈ (groupsOf (layerKey sha) (includedLayers projLayers offlineIds)).flatMap _
    rw [List.mem_flatMap]
    refine ⟨(layerKey sha l, (includedLayers projLayers offlineIds).filter
        (fun x => layerKey sha x == layerKey sha l)), ?_, ?_⟩
    · exact List.mem_map_of_mem _ hk
    · have hlf : l ∈ (includedLayers projLayers offlineIds).filter
          (fun x => layerKey sha x == layerKey sha l) :=
        List.mem_filter.mpr ⟨hl, by simp⟩
      have hsrc : sha ((((includedLayers projLayers offlineIds).filter
          (fun x => layerKey sha x == layerKey sha l)).headD dummyOffLayer)).dataSourceUri =
          sha l.dataSourceUri := hhead.1
      show (l.id, offlineSource gpkgPath (sha l.dataSourceUri)) ∈
        List.map (fun m => (m.id, offlineSource gpkgPath
          (sha ((((includedLayers projLayers offlineIds).filter
            (fun x => layerKey sha x == layerKey sha l)).headD
              dummyOffLayer)).dataSourceUri)))
          ((includedLayers projLayers offlineIds).filter
            (fun x => layerKey sha x == layerKey sha l))
      rw [hsrc]
      exact List.mem_map_of_mem _ hlf
  · intro u hu
    have hu2 := List.mem_flatMap.mp hu
    obtain ⟨g, hg, hmem⟩ := hu2
    obtain ⟨k, hk, rfl⟩ := List.mem_map.mp hg
    obtain ⟨m, hm, rfl⟩ := List.mem_map.mp hmem
    have hmf := List.mem_filter.mp hm
    have hmk : layerKey sha m = k := by simpa using hmf.2
    have hhead := filter_key_head (layerKey sha) (includedLayers projLayers offlineIds)
      k dummyOffLayer ⟨m, hmf.1, hmk⟩
    have hh : sha (((includedLayers projLayers offlineIds).filter
        (fun l => layerKey sha l == k)).headD dummyOffLayer).dataSourceUri = k := hhead.1
    refine ⟨m, hmf.1, ?_⟩
    show (m.id, offlineSource gpkgPath
        (sha (((includedLayers projLayers offlineIds).filter
          (fun l => layerKey sha l == k)).headD dummyOffLayer).dataSourceUri)) =
      (m.id, offlineSource gpkgPath (sha m.dataSourceUri))
    rw [hh, ← hmk]
    rfl

/-- C1 witness: two layers sharing one connection string plus a third with
its own; both shared-source layers are repointed at the same offline table
and the created tables are distinct. -/
theorem c1_witness :
    c1LayerA ∈ includedLayers [c1LayerA, c1LayerB, c1LayerC] none ∧
    (c1LayerA.id, offlineSource "data.gpkg" "PG:table=rivers") ∈
      (convertProject (fun s => s) "data.gpkg" [c1LayerA, c1LayerB, c1LayerC] none none
        "T" "b").updates ∧
    (c1LayerB.id, offlineSource "data.gpkg" "PG:table=rivers") ∈
      (convertProject (fun s => s) "data.gpkg" [c1LayerA, c1LayerB, c1LayerC] none none
        "T" "b").updates ∧
    (convertProject (fun s => s) "data.gpkg" [c1LayerA, c1LayerB, c1LayerC] none none
      "T" "b").createdTables.Nodup := by
  have hmemA : c1LayerA ∈ includedLayers [c1LayerA, c1LayerB, c1LayerC] none :=
    List.mem_filter.mpr ⟨List.mem_cons_self _ _, rfl⟩
  have hmemB : c1LayerB ∈ includedLayers [c1LayerA, c1LayerB, c1LayerC] none :=
    List.mem_filter.mpr ⟨List.mem_cons_of_mem _ (List.mem_cons_self _ _), rfl⟩
  have hc := c1_datasource_groups_consolidated (fun s => s) "data.gpkg"
    [c1LayerA, c1LayerB, c1LayerC] none none "T" "b"
  exact ⟨hmemA, hc.2.2.2.1 c1LayerA hmemA, hc.2.2.2.1 c1LayerB hmemB, hc.1⟩

theorem copyFiles_not_dest (targetPath : String) (keep : Bool) :
    ∀ (files : List String) (fs fs' : FS),
      copyFiles targetPath keep files fs = Except.ok fs' →
      ∀ p, (∀ f ∈ files, destPath targetPath f ≠ p) → fs' p = fs p := by
  intro files
  induction files with
  | nil =>
    intro fs fs' h p _
    simp only [copyFiles] at h
    cases h
    rfl
  | cons f rest ih =>
    intro fs fs' h p hp
    simp only [copyFiles] at h
    by_cases hb : (!keep || (fs (destPath targetPath f)).isNone) = true
    · rw [if_pos hb] at h
      rcases e : fs f with _ | c
      · rw [e] at h
        cases h
      · rw [e] at h
        have := ih _ _ h p (fun g hg => hp g (List.mem_cons_of_mem _ hg))
        rw [this, fsUpdate]
        rw [if_neg ?_]
        intro hpe
        exact hp f (List.mem_cons_self _ _) hpe.symm
    · rw [if_neg hb] at h
      exact ih _ _ h p (fun g hg => hp g (List.mem_cons_of_mem _ hg))

theorem copyFiles_mono_some (targetPath : String) (keep : Bool) :
    ∀ (files : List String) (fs fs' : FS),
      copyFiles targetPath keep files fs = Except.ok fs' →
      ∀ p, (fs p).isSome = true → (fs' p).isSome = true := by
  intro files
  induction files with
  | nil =>
    intro fs fs' h p hp
    simp only [copyFiles] at h
    cases h
    exact hp
  | cons f rest ih =>
    intro fs fs' h p hp
    simp only [copyFiles] at h
    by_cases hb : (!keep || (fs (destPath targetPath f)).isNone) = true
    · rw [if_pos hb] at h
      rcases e : fs f with _ | c
      · rw [e] at h
        cases h
      · rw [e] at h
        refine ih _ _ h p ?_
        rw [fsUpdate]
        by_cases hpd : p = destPath targetPath f
        · rw [if_pos hpd]
          rfl
        · rw [if_neg hpd]
          exact hp
    · rw [if_neg hb] at h
      exact ih _ _ h p hp

theorem copyFiles_dest_some (targetPath : String) (keep : Bool) :
    ∀ (files : List String) (fs fs' : FS),
      copyFiles targetPath keep files fs = Except.ok fs' →
      ∀ f ∈ files, (fs' (destPath targetPath f)).isSome = true := by
  intro files
  induction files with
  | nil =>
    intro fs fs' _ f hf
    exact absurd hf (List.not_mem_nil _)
  | cons g rest ih =>
    intro fs fs' h f hf
    simp only [copyFiles] at h
    by_cases hb : (!keep || (fs (destPath targetPath g)).isNone) = true
    · rw [if_pos hb] at h
      rcases e : fs g with _ | c
      · rw [e] at h
        cases h
      · rw [e] at h
        rcases List.mem_cons.mp hf with rfl | hf2
        · refine copyFiles_mono_some targetPath keep rest _ _ h _ ?_
          rw [fsUpdate, if_pos rfl]
          rfl
        · exact ih _ _ h f hf2
    · rw [if_neg hb] at h
      rcases List.mem_cons.mp hf with rfl | hf2
      · have hsome : (fs (destPath targetPath f)).isSome = true := by
          rcases hcase : fs (destPath targetPath f) with _ | c
          · exfalso
            apply hb
            rw [hcase]
            simp
          · rfl
        exact copyFiles_mono_some targetPath keep rest _ _ h _ hsome
      · exact ih _ _ h f hf2

theorem copyFiles_keep_noop (targetPath : String) :
    ∀ (files : List String) (fs : FS),
      (∀ f ∈ files, (fs (destPath targetPath f)).isSome = true) →
      copyFiles targetPath true files fs = Except.ok fs := by
  intro files
  induction files with
  | nil => intro fs _; rfl
  | cons f rest ih =>
    intro fs hpres
    simp only [copyFiles]
    rw [if_neg ?_]
    · exact ih fs (fun g hg => hpres g (List.mem_cons_of_mem _ hg))
    · have := hpres f (List.mem_cons_self _ _)
      simp [Option.isNone_iff_eq_none]
      rcases e : fs (destPath targetPath f) with _ | c
      · rw [e] at this
        cases this
      · simp
    
theorem copyFiles_ok (targetPath : String) (keep : Bool) :
    ∀ (files : List String) (fs : FS),
      (∀ f ∈ files, (fs f).isSome = true) →
      ∃ fs', copyFiles targetPath keep files fs = Except.ok fs' := by
  intro files
  induction files with
  | nil => intro fs _; exact ⟨fs, rfl⟩
  | cons f rest ih =>
    intro fs h1
    simp only [copyFiles]
    by_cases hb : (!keep || (fs (destPath targetPath f)).isNone) = true
    · rw [if_pos hb]
      rcases e : fs f with _ | c
      · have := h1 f (List.mem_cons_self _ _)
        rw [e] at this
        cases this
      · refine ih (fsUpdate fs (destPath targetPath f) c) ?_
        intro g hg
        rw [fsUpdate]
        by_cases hgd : g = destPath targetPath f
        · rw [if_pos hgd]
          rfl
        · rw [if_neg hgd]
          exact h1 g (List.mem_cons_of_mem _ hg)
    · rw [if_neg hb]
      exact ih fs (fun g hg => h1 g (List.mem_cons_of_mem _ hg))

theorem copyFiles_false_writes (targetPath : String) :
    ∀ (files : List String) (fs fs' : FS),
      (∀ f ∈ files, (fs f).isSome = true) →
      (files.map (destPath targetPath)).Nodup →
      (∀ f ∈ files, ∀ g ∈ files, destPath targetPath g ≠ f) →
      copyFiles targetPath false files fs = Except.ok fs' →
      ∀ f ∈ files, fs' (destPath targetPath f) = fs f := by
  intro files
  induction files with
  | nil =>
    intro fs fs' _ _ _ _ f hf
    exact absurd hf (List.not_mem_nil _)
  | cons g rest ih =>
    intro fs fs' h1 h2 h3 h f hf
    simp only [copyFiles] at h
    rw [if_pos (by simp)] at h
    rcases e : fs g with _ | c
    · rw [e] at h
      cases h
    · rw [e] at h
      have hfsu : ∀ x ∈ rest, fsUpdate fs (destPath targetPath g) c x = fs x := by
        intro x hx
        rw [fsUpdate, if_neg ?_]
        intro hxe
        exact h3 x (List.mem_cons_of_mem _ hx) g (List.mem_cons_self _ _) hxe.symm
      rcases List.mem_cons.mp hf with rfl | hf2
      · have hnd : destPath targetPath f ∉ rest.map (destPath targetPath) :=
          (List.nodup_cons.mp h2).1
        have := copyFiles_not_dest targetPath false rest _ _ h (destPath targetPath f)
          (fun x hx hxe => hnd (hxe ▸ List.mem_map_of_mem _ hx))
        rw [this, fsUpdate, if_pos rfl, e]
      · refine Eq.trans (ih _ _ ?_ (List.nodup_cons.mp h2).2 ?_ h f hf2) (hfsu f hf2)
        · intro x hx
          rw [hfsu x hx]
          exact h1 x (List.mem_cons_of_mem _ hx)
        · intro x hx y hy
          exact h3 x (List.mem_cons_of_mem _ hx) y (List.mem_cons_of_mem _ hy)

/-- C8: under well-formed inputs for a file-backed layer (all files to copy
exist, their destination paths are pairwise distinct and distinct from
every source path), the `keep_existent` copy is idempotent — a second run
on the filesystem produced by the first changes nothing, in particular it
overwrites no file the first run created — while the plain copy writes
every destination from its source even when the destination already
exists. -/
theorem c8_keep_existent_idempotent (l : PolicyLayer) (sidecars : List String)
    (targetPath : String) (copiedFiles : List String) (fs : FS)
    (h1 : ∀ f ∈ filesToCopy l sidecars, (fs f).isSome = true)
    (h2 : ((filesToCopy l sidecars).map (destPath targetPath)).Nodup)
    (h3 : ∀ f ∈ filesToCopy l sidecars, ∀ g ∈ filesToCopy l sidecars,
      destPath targetPath g ≠ f) :
    (∀ out, layerCopy l sidecars targetPath copiedFiles true fs = Except.ok out →
      layerCopy l sidecars targetPath copiedFiles true out.fs =
        Except.ok ⟨some copiedFiles, out.fs,
          some (computeNewSource l targetPath (pathBase (filename l)))⟩) ∧
    (∃ out, layerCopy l sidecars targetPath copiedFiles false fs = Except.ok out ∧
      ∀ f ∈ filesToCopy l sidecars, out.fs (destPath targetPath f) = fs f) := by
  have hfn : filename l ∈ filesToCopy l sidecars := by
    unfold filesToCopy
    by_cases hc : sidecars.contains (filename l) = true
    · rw [if_pos hc]
      exact List.mem_of_elem_eq_true hc
    · rw [if_neg hc]
      exact List.mem_append_right _ (List.mem_cons_self _ _)
  have hisf : isFile l fs = true := h1 _ hfn
  constructor
  · intro out hout
    unfold layerCopy at hout
    rw [hisf] at hout
    simp only [Bool.not_true, Bool.false_eq_true, if_false] at hout
    rcases e : copyFiles targetPath true (filesToCopy l sidecars) fs with err | fs2
    · rw [e] at hout
      cases hout
    · rw [e] at hout
      cases hout
      have hsrcs : ∀ f ∈ filesToCopy l sidecars, fs2 f = fs f := by
        intro f hf
        exact copyFiles_not_dest targetPath true _ _ _ e f
          (fun g hg => h3 f hf g hg)
      have hisf2 : isFile l fs2 = true := by
        show (fs2 (filename l)).isSome = true
        rw [hsrcs _ hfn]
        exact h1 _ hfn
      have hpres := copyFiles_dest_some targetPath true _ _ _ e
      have hnoop := copyFiles_keep_noop targetPath _ fs2 hpres
      unfold layerCopy
      rw [hisf2]
      simp only [Bool.not_true, Bool.false_eq_true, if_false]
      rw [hnoop]
  · obtain ⟨fs', e⟩ := copyFiles_ok targetPath false (filesToCopy l sidecars) fs h1
    refine ⟨⟨some copiedFiles, fs',
      some (computeNewSource l targetPath (pathBase (filename l)))⟩, ?_, ?_⟩
    · unfold layerCopy
      rw [hisf]
      simp only [Bool.not_true, Bool.false_eq_true, if_false]
      rw [e]
    · exact copyFiles_false_writes targetPath _ _ _ h1 h2 h3 e

/-- C8 witness: the theorem applied to a concrete GeoPackage-backed layer
whose source directory differs from the destination directory. -/
theorem c8_witness :
    (∀ f ∈ filesToCopy c8Layer [], (c8FS f).isSome = true) ∧
    ((filesToCopy c8Layer []).map (destPath "out")).Nodup ∧
    (∀ f ∈ filesToCopy c8Layer [], ∀ g ∈ filesToCopy c8Layer [],
      destPath "out" g ≠ f) ∧
    (∃ out, layerCopy c8Layer [] "out" [] false c8FS = Except.ok out ∧
      ∀ f ∈ filesToCopy c8Layer [], out.fs (destPath "out" f) = c8FS f) :=
  ⟨by decide, by decide, by decide,
    (c8_keep_existent_idempotent c8Layer [] "out" [] c8FS (by decide) (by decide)
      (by decide)).2⟩

end LibQFieldSync
